import Mathlib

/-!
Verification of the School Management System core (src/app.py) against its
natural-language specification.  The relational state of the SQLite database
is embedded as lists of records; the route handlers' data logic is embedded
as pure functions over that state.  REAL columns are modelled as `ℚ`,
TEXT columns as `String`, integer keys as `Nat`.
-/

namespace SchoolMS

/-- Row of table `classes` (init_db): id, class_name, section. -/
structure SClass where
  id : Nat
  class_name : String
  sect : String
deriving DecidableEq

/-- Row of table `subjects`: id, class_id, subject_name. -/
structure Subject where
  id : Nat
  class_id : Nat
  subject_name : String
deriving DecidableEq

/-- Row of table `students`: id, name, roll_no, class_id.  `roll_no` is TEXT
in the schema, hence `String`. -/
structure Student where
  id : Nat
  name : String
  roll_no : String
  class_id : Nat
deriving DecidableEq

/-- Row of table `exams`: id, class_id, name (exam_type and weight omitted:
no claim depends on them and the weight is never used in computation). -/
structure Exam where
  id : Nat
  class_id : Nat
  name : String
deriving DecidableEq

/-- Row of table `marks`: PRIMARY KEY (student_id, subject_id, exam_id),
marks_obtained REAL. -/
structure Mark where
  student_id : Nat
  subject_id : Nat
  exam_id : Nat
  marks_obtained : ℚ
deriving DecidableEq

/-- Row of table `attendance_sessions`: id, class_id, date. -/
structure ASession where
  id : Nat
  class_id : Nat
  date : String
deriving DecidableEq

/-- Row of table `attendance_records`: id, session_id, student_id,
status ∈ {"P","A"}. -/
structure ARecord where
  id : Nat
  session_id : Nat
  student_id : Nat
  status : String
deriving DecidableEq

/-- Row of table `fee_structures`: id, class_id, name, amount, due_date. -/
structure FeeStructure where
  id : Nat
  class_id : Nat
  name : String
  amount : ℚ
  due_date : Option String
deriving DecidableEq

/-- Row of table `fee_payments`: id, student_id, fee_id, paid_amount,
paid_on, mode. -/
structure FeePayment where
  id : Nat
  student_id : Nat
  fee_id : Nat
  paid_amount : ℚ
  paid_on : String
  mode : Option String
deriving DecidableEq

/-- The database state: one list per table, plus the AUTOINCREMENT counters
for the tables whose handlers insert fresh rows. -/
structure DB where
  classes : List SClass
  subjects : List Subject
  students : List Student
  exams : List Exam
  marks : List Mark
  sessions : List ASession
  records : List ARecord
  fee_structures : List FeeStructure
  fee_payments : List FeePayment
  next_student_id : Nat
  next_session_id : Nat
  next_record_id : Nat
  next_fee_id : Nat
deriving DecidableEq

/-- Subjects of a class: `SELECT * FROM subjects WHERE class_id=?`. -/
def classSubjects (db : DB) (cid : Nat) : List Subject :=
  db.subjects.filter (fun sub => decide (sub.class_id = cid))

/-- Students of a class: `SELECT * FROM students WHERE class_id=?`. -/
def classStudents (db : DB) (cid : Nat) : List Student :=
  db.students.filter (fun s => decide (s.class_id = cid))

/-- The `COALESCE(m.marks_obtained, 0)` of the LEFT JOIN in `result`
(app.py 1008-1017): the unique mark for (student, subject, exam), or 0 when
no row exists. -/
def markScore (db : DB) (sid subId eid : Nat) : ℚ :=
  match db.marks.find?
      (fun m => decide (m.student_id = sid ∧ m.subject_id = subId ∧ m.exam_id = eid)) with
  | some m => m.marks_obtained
  | none => 0

/-- Grade if-chain of `result` (app.py 1023-1032). -/
def gradeOf (percentage : ℚ) : String :=
  if percentage ≥ 90 then "A+"
  else if percentage ≥ 80 then "A"
  else if percentage ≥ 60 then "B"
  else if percentage ≥ 33 then "C"
  else "F"

/-- Pass/fail line of `result` (app.py 1022). -/
def statusOf (percentage : ℚ) : String :=
  if percentage ≥ 33 then "PASS" else "FAIL"

/-- Output shape of the individual result computation. -/
structure ResultCard where
  total : ℚ
  max_total : ℚ
  percentage : ℚ
  grade : String
  status : String
deriving DecidableEq

/-- The `result` route (app.py 974-1032): 404 (`none`) when the student does
not exist or the exam does not belong to the student's class; otherwise the
subject rows are the class's subjects LEFT JOINed with the (student, exam)
marks, total = their sum, max = count × 100, percentage guarded against a
zero denominator, then grade and status. -/
def resultCard (db : DB) (studentId examId : Nat) : Option ResultCard :=
  match db.students.find? (fun s => decide (s.id = studentId)) with
  | none => none
  | some stu =>
    match db.exams.find? (fun e => decide (e.id = examId ∧ e.class_id = stu.class_id)) with
    | none => none
    | some _ =>
      let subs := classSubjects db stu.class_id
      let total : ℚ := (subs.map (fun sub => markScore db studentId sub.id examId)).sum
      let max_total : ℚ := (subs.length : ℚ) * 100
      let percentage : ℚ := if max_total = 0 then 0 else total / max_total * 100
      some ⟨total, max_total, percentage, gradeOf percentage, statusOf percentage⟩

/-- The spec's grade table, as written: thresholds evaluated top-down, first
match wins, default F. -/
def specGradeTable : List (ℚ × String) := [(90, "A+"), (80, "A"), (60, "B"), (33, "C")]

/-- Modelled from the spec: grade = first matching threshold of
`specGradeTable`, else "F". -/
def specGrade (p : ℚ) : String :=
  match specGradeTable.find? (fun t => decide (t.1 ≤ p)) with
  | some t => t.2
  | none => "F"

/-- The `INSERT OR REPLACE INTO marks` statement (app.py 929-933): at most one row per
(student, subject, exam); a new submission replaces the old row. -/
def upsertMark (db : DB) (sid subId eid : Nat) (score : ℚ) : DB :=
  { db with marks :=
      Mark.mk sid subId eid score ::
        db.marks.filter (fun m =>
          decide (¬(m.student_id = sid ∧ m.subject_id = subId ∧ m.exam_id = eid))) }

/-- A posted form value for one subject: `none` = the field `marks_<id>` is
absent from the form, `some none` = present but unparseable as a float,
`some (some q)` = present with numeric value q. -/
def parseMarks (v : Option (Option ℚ)) : ℚ :=
  match v with
  | some (some q) => q
  | some none => 0
  | none => 0

/-- POST branch of `enter_marks` (app.py 920-934): for EVERY subject of the
class, read the form field (missing → "" → 0.0, unparseable → 0.0) and
`INSERT OR REPLACE` the (student, subject, exam) row. -/
def enter_marks (db : DB) (cid eid sid : Nat) (form : Nat → Option (Option ℚ)) : DB :=
  (classSubjects db cid).foldl
    (fun d sub => upsertMark d sid sub.id eid (parseMarks (form sub.id))) db

/-- Lookup `SELECT * FROM attendance_sessions WHERE class_id=? AND date=?`. -/
def findSession (db : DB) (cid : Nat) (dateStr : String) : Option ASession :=
  db.sessions.find? (fun s => decide (s.class_id = cid ∧ s.date = dateStr))

/-- The id of the session that a POST to `attendance` writes to: the existing
(class, date) session if any, else the freshly inserted one. -/
def attSessionId (db : DB) (cid : Nat) (dateStr : String) : Nat :=
  match findSession db cid dateStr with
  | some srow => srow.id
  | none => db.next_session_id

/-- Record-insertion loop of `attendance` (app.py 1396-1407): delete all
records of the session, then insert one row per roster member with status
"P" when the checkbox `present_<id>` was submitted as "on", else "A". -/
def saveRecords (db : DB) (sessionId cid : Nat) (form : Nat → Bool) : DB :=
  let cleared := db.records.filter (fun r => decide (¬ r.session_id = sessionId))
  let roster := classStudents db cid
  { db with
    records := cleared ++
      (roster.enum.map (fun p =>
        ARecord.mk (db.next_record_id + p.1) sessionId p.2.id
          (if form p.2.id then "P" else "A"))),
    next_record_id := db.next_record_id + roster.length }

/-- POST branch of `attendance` (app.py 1383-1407): create the (class, date)
session if missing, then fully replace its records from the posted form. -/
def saveAttendance (db : DB) (cid : Nat) (dateStr : String) (form : Nat → Bool) : DB :=
  match findSession db cid dateStr with
  | some srow => saveRecords db srow.id cid form
  | none =>
    let db1 := { db with
      sessions := db.sessions ++ [ASession.mk db.next_session_id cid dateStr],
      next_session_id := db.next_session_id + 1 }
    saveRecords db1 db.next_session_id cid form

/-- The two user roles (`users.role CHECK (role IN ('admin','teacher'))`). -/
inductive Role
  | admin
  | teacher
deriving DecidableEq

/-- The error outcomes a route can surface: redirect to login, HTTP 403
(`abort(403)`), HTTP 404 (`abort(404)`). -/
inductive RouteErr
  | loginRequired
  | forbidden
  | notFound
deriving DecidableEq

/-- The `require_role` decorator (app.py 181-194): anonymous callers are sent to
login; a logged-in caller whose role is not in the allowed list gets 403. -/
def require_role (allowed : List Role) (user : Option Role) : Option RouteErr :=
  match user with
  | none => some RouteErr.loginRequired
  | some r => if r ∈ allowed then none else some RouteErr.forbidden

/-- Cascade delete of a class (app.py delete_class 511-523 together with the
`ON DELETE CASCADE` foreign keys of init_db 36-133 and
`PRAGMA foreign_keys = ON`): the class row plus its subjects, students,
exams, fee structures and attendance sessions go away, and every mark,
attendance record and fee payment referencing a deleted parent goes away
transitively. -/
def cascadeDeleteClass (db : DB) (cid : Nat) : DB :=
  let deadSubjects := (db.subjects.filter (fun x => decide (x.class_id = cid))).map (fun x => x.id)
  let deadStudents := (db.students.filter (fun x => decide (x.class_id = cid))).map (fun x => x.id)
  let deadExams := (db.exams.filter (fun x => decide (x.class_id = cid))).map (fun x => x.id)
  let deadFees := (db.fee_structures.filter (fun x => decide (x.class_id = cid))).map (fun x => x.id)
  let deadSessions := (db.sessions.filter (fun x => decide (x.class_id = cid))).map (fun x => x.id)
  { db with
    classes := db.classes.filter (fun c => decide (¬ c.id = cid)),
    subjects := db.subjects.filter (fun x => decide (¬ x.class_id = cid)),
    students := db.students.filter (fun x => decide (¬ x.class_id = cid)),
    exams := db.exams.filter (fun x => decide (¬ x.class_id = cid)),
    fee_structures := db.fee_structures.filter (fun x => decide (¬ x.class_id = cid)),
    sessions := db.sessions.filter (fun x => decide (¬ x.class_id = cid)),
    marks := db.marks.filter (fun m =>
      decide (¬ (m.student_id ∈ deadStudents ∨ m.subject_id ∈ deadSubjects ∨ m.exam_id ∈ deadExams))),
    records := db.records.filter (fun r =>
      decide (¬ (r.session_id ∈ deadSessions ∨ r.student_id ∈ deadStudents))),
    fee_payments := db.fee_payments.filter (fun p =>
      decide (¬ (p.student_id ∈ deadStudents ∨ p.fee_id ∈ deadFees))) }

/-- The `delete_class` route (app.py 511-523): guarded by admin `require_role`
(after `login_required`); 404 when the class id does not exist; otherwise the
cascading delete runs. -/
def delete_class_route (user : Option Role) (db : DB) (cid : Nat) : Except RouteErr DB :=
  match require_role [Role.admin] user with
  | some e => Except.error e
  | none =>
    match db.classes.find? (fun c => decide (c.id = cid)) with
    | none => Except.error RouteErr.notFound
    | some _ => Except.ok (cascadeDeleteClass db cid)

/-- Insertion `INSERT INTO fee_structures` (app.py 1520-1523). -/
def addFeeStructure (db : DB) (cid : Nat) (name : String) (amount : ℚ) (due : Option String) : DB :=
  { db with
    fee_structures := db.fee_structures ++ [FeeStructure.mk db.next_fee_id cid name amount due],
    next_fee_id := db.next_fee_id + 1 }

/-- POST branch of `fees_class` (app.py 1501-1526) for a logged-in caller:
404 when the class is missing; then the fee item is inserted only when
`g.user["role"] == "admin"` AND the name is non-blank AND the parsed amount
is positive — for a non-admin caller the condition at line 1509 is false and
the request falls through with no insert and no error. -/
def fees_class_post (user : Role) (db : DB) (cid : Nat) (name : String) (amount : ℚ)
    (due : Option String) : Except RouteErr DB :=
  match db.classes.find? (fun c => decide (c.id = cid)) with
  | none => Except.error RouteErr.notFound
  | some _ =>
    if user = Role.admin then
      if name = "" ∨ amount ≤ 0 then Except.ok db
      else Except.ok (addFeeStructure db cid name amount due)
    else Except.ok db

/-- Class-wide total due (app.py 1538-1541 and 1678-1681):
`SELECT COALESCE(SUM(amount),0) FROM fee_structures WHERE class_id=?`. -/
def totalDue (db : DB) (cid : Nat) : ℚ :=
  ((db.fee_structures.filter (fun f => decide (f.class_id = cid))).map (fun f => f.amount)).sum

/-- A student's paid total (app.py 1545-1553 and 1682-1690): sum of
`fee_payments` joined to the class's `fee_structures`. -/
def totalPaid (db : DB) (sid cid : Nat) : ℚ :=
  ((db.fee_payments.filter (fun p =>
      decide (p.student_id = sid ∧ ∃ f ∈ db.fee_structures, f.id = p.fee_id ∧ f.class_id = cid))).map
    (fun p => p.paid_amount)).sum

/-- Fee summary shape reported by `fees_student`. -/
structure FeeSummary where
  due : ℚ
  paid : ℚ
  balance : ℚ
deriving DecidableEq

/-- Summary part of the `fees_student` route (app.py 1624-1691): 404 when
the student does not exist; otherwise total due, total paid and
balance = due − paid over the student's class. -/
def fees_student (db : DB) (sid : Nat) : Option FeeSummary :=
  match db.students.find? (fun s => decide (s.id = sid)) with
  | none => none
  | some stu =>
    some ⟨totalDue db stu.class_id, totalPaid db sid stu.class_id,
          totalDue db stu.class_id - totalPaid db sid stu.class_id⟩

/-- Existence test `SELECT ... WHERE class_id=? AND roll_no=?`: the UNIQUE
(class_id, roll_no) constraint fires on INSERT exactly when this holds. -/
def rollTaken (students : List Student) (cid : Nat) (roll : String) : Bool :=
  students.any (fun t => decide (t.class_id = cid ∧ t.roll_no = roll))

/-- One INSERT of the promotion loop (app.py 556-563): the row is inserted
with a fresh id unless an IntegrityError fires — either the UNIQUE
(class_id, roll_no) constraint or the class_id FOREIGN KEY — in which case
the student is skipped. -/
def insertStudent (d : DB) (name roll : String) (cid : Nat) : DB :=
  if (d.classes.any (fun c => decide (c.id = cid))) && !(rollTaken d.students cid roll) then
    { d with
      students := d.students ++ [Student.mk d.next_student_id name roll cid],
      next_student_id := d.next_student_id + 1 }
  else d

/-- Cascade of `DELETE FROM students WHERE class_id=?` (app.py 564-568 with
the foreign keys of init_db): the students of the class go away together
with their marks, attendance records and fee payments. -/
def deleteStudentsOfClass (db : DB) (cid : Nat) : DB :=
  let dead := (db.students.filter (fun x => decide (x.class_id = cid))).map (fun x => x.id)
  { db with
    students := db.students.filter (fun x => decide (¬ x.class_id = cid)),
    marks := db.marks.filter (fun m => decide (¬ m.student_id ∈ dead)),
    records := db.records.filter (fun r => decide (¬ r.student_id ∈ dead)),
    fee_payments := db.fee_payments.filter (fun p => decide (¬ p.student_id ∈ dead)) }

/-- The promotion loop (app.py 555-563) over a previously read roster
snapshot: each student is INSERTed independently, IntegrityError skipped. -/
def promoteFold (targetId : Nat) (L : List Student) (d : DB) : DB :=
  L.foldl (fun d stu => insertStudent d stu.name stu.roll_no targetId) d

/-- POST branch of `promote_class` (app.py 547-569): the source roster is
read first; each student is INSERTed into the target independently with
IntegrityError skipped; in move mode all students of the source class are
then deleted (cascading). -/
def promote_class (db : DB) (sourceId targetId : Nat) (move : Bool) : DB :=
  let db1 := promoteFold targetId (classStudents db sourceId) db
  if move then deleteStudentsOfClass db1 sourceId else db1

/-- One row of the class-results query (app.py 1219-1230). -/
structure ResultRow where
  student_id : Nat
  name : String
  roll_no : String
  total : ℚ
deriving DecidableEq

/-- The `COALESCE(SUM(m.marks_obtained), 0)` of one student in the LEFT JOIN of
`class_results`: the sum of all of the student's mark rows for the exam
(the join constrains only student and exam, not the subject's class). -/
def examTotal (db : DB) (sid eid : Nat) : ℚ :=
  ((db.marks.filter (fun m => decide (m.student_id = sid ∧ m.exam_id = eid))).map
    (fun m => m.marks_obtained)).sum

/-- The `ORDER BY total DESC, s.roll_no` ordering of `class_results`:
a row comes no later than another when its total is larger, or the totals
are equal and its TEXT roll_no is ≤ (SQLite compares TEXT lexicographically,
which is the `String` linear order). -/
def rowLE (a b : ResultRow) : Prop :=
  b.total < a.total ∨ (a.total = b.total ∧ a.roll_no ≤ b.roll_no)

instance : DecidableRel rowLE := fun a b => by
  unfold rowLE; infer_instance

instance : IsTotal ResultRow rowLE where
  total a b := by
    unfold rowLE
    rcases lt_trichotomy a.total b.total with h | h | h
    · exact Or.inr (Or.inl h)
    · rcases le_total a.roll_no b.roll_no with hr | hr
      · exact Or.inl (Or.inr ⟨h, hr⟩)
      · exact Or.inr (Or.inr ⟨h.symm, hr⟩)
    · exact Or.inl (Or.inl h)

instance : IsTrans ResultRow rowLE where
  trans a b c hab hbc := by
    unfold rowLE at hab hbc ⊢
    rcases hab with h1 | ⟨h1, hr1⟩
    · rcases hbc with h2 | ⟨h2, _⟩
      · exact Or.inl (h2.trans h1)
      · exact Or.inl (h2 ▸ h1)
    · rcases hbc with h2 | ⟨h2, hr2⟩
      · exact Or.inl (by rw [h1]; exact h2)
      · exact Or.inr ⟨h1.trans h2, hr1.trans hr2⟩

/-- The rows of `class_results` / `class_results_csv` (app.py 1219-1230,
1315-1326): one row per student of the class with the student's summed
total for the exam, ordered by `ORDER BY total DESC, s.roll_no`. -/
def class_results (db : DB) (cid eid : Nat) : List ResultRow :=
  ((classStudents db cid).map
    (fun s => ResultRow.mk s.id s.name s.roll_no (examTotal db s.id eid))).insertionSort rowLE

/-! ### Helper lemmas -/

theorem filter_not_filter {α : Type} (p : α → Prop) [DecidablePred p] (l : List α) :
    (l.filter (fun a => decide (¬ p a))).filter (fun a => decide (p a)) = [] := by
  induction l with
  | nil => rfl
  | cons a l ih =>
    by_cases h : p a <;> simp [List.filter_cons, h, ih]

theorem filter_not_idem {α : Type} (p : α → Prop) [DecidablePred p] (l : List α) :
    (l.filter (fun a => decide (¬ p a))).filter (fun a => decide (¬ p a))
      = l.filter (fun a => decide (¬ p a)) := by
  induction l with
  | nil => rfl
  | cons a l ih =>
    by_cases h : p a <;> simp [List.filter_cons, h, ih]

/-! ### C7 -/

/-- C7: Mark upsert idempotence — submitting the same (student, subject,
exam, score) twice yields the same state as submitting it once, and after a
submission the marks table holds exactly one row for that triple, carrying
that score. -/
theorem mark_upsert_idempotent (db : DB) (sid subId eid : Nat) (v : ℚ) :
    upsertMark (upsertMark db sid subId eid v) sid subId eid v
      = upsertMark db sid subId eid v ∧
    (upsertMark db sid subId eid v).marks.filter
      (fun m => decide (m.student_id = sid ∧ m.subject_id = subId ∧ m.exam_id = eid))
      = [Mark.mk sid subId eid v] := by
  constructor
  · show ({ upsertMark db sid subId eid v with marks := _ } : DB) = _
    simp only [upsertMark, List.filter_cons]
    simp [filter_not_idem (fun m : Mark =>
      m.student_id = sid ∧ m.subject_id = subId ∧ m.exam_id = eid)]
  · simp only [upsertMark, List.filter_cons]
    simp [filter_not_filter (fun m : Mark =>
      m.student_id = sid ∧ m.subject_id = subId ∧ m.exam_id = eid)]

/-! ### C1 -/

theorem gradeOf_eq_specGrade (p : ℚ) : gradeOf p = specGrade p := by
  unfold gradeOf specGrade specGradeTable
  by_cases h90 : (90 : ℚ) ≤ p
  · simp [List.find?, h90, ge_iff_le]
  · by_cases h80 : (80 : ℚ) ≤ p
    · simp [List.find?, h90, h80, ge_iff_le]
    · by_cases h60 : (60 : ℚ) ≤ p
      · simp [List.find?, h90, h80, h60, ge_iff_le]
      · by_cases h33 : (33 : ℚ) ≤ p
        · simp [List.find?, h90, h80, h60, h33, ge_iff_le]
        · simp [List.find?, h90, h80, h60, h33, ge_iff_le]

theorem statusOf_pass_iff (p : ℚ) : statusOf p = "PASS" ↔ 33 ≤ p := by
  unfold statusOf
  by_cases h : (33 : ℚ) ≤ p <;> simp [h, ge_iff_le]

theorem statusOf_cases (p : ℚ) : statusOf p = "PASS" ∨ statusOf p = "FAIL" := by
  unfold statusOf
  by_cases h : (33 : ℚ) ≤ p <;> simp [h, ge_iff_le]

theorem gradeOf_at_33 : gradeOf 33 = "C" := by
  unfold gradeOf
  norm_num

theorem gradeOf_at_3299 : gradeOf (3299 / 100) = "F" := by
  unfold gradeOf
  norm_num

theorem statusOf_at_33 : statusOf 33 = "PASS" := by
  unfold statusOf
  norm_num

theorem statusOf_at_3299 : statusOf (3299 / 100) = "FAIL" := by
  unfold statusOf
  norm_num

/-- What C1 asserts of a result card produced for (student, exam): the spec's
formulas for total, max, percentage, grade (first matching threshold), status
(PASS iff percentage ≥ 33), and the 33.00 / 32.99 boundary behaviour. -/
def ResultSpec (db : DB) (sid eid : Nat) (r : ResultCard) : Prop :=
  ∃ stu, db.students.find? (fun s => decide (s.id = sid)) = some stu ∧
    r.total = ((classSubjects db stu.class_id).map
      (fun sub => markScore db sid sub.id eid)).sum ∧
    r.max_total = ((classSubjects db stu.class_id).length : ℚ) * 100 ∧
    (r.max_total = 0 → r.percentage = 0) ∧
    (r.max_total ≠ 0 → r.percentage = r.total / r.max_total * 100) ∧
    r.grade = specGrade r.percentage ∧
    (r.status = "PASS" ↔ 33 ≤ r.percentage) ∧
    (r.status = "PASS" ∨ r.status = "FAIL") ∧
    (r.percentage = 33 → r.status = "PASS" ∧ r.grade = "C") ∧
    (r.percentage = 3299 / 100 → r.status = "FAIL" ∧ r.grade = "F")

/-- C1: Individual result computation — whenever the `result` route succeeds
for (student, exam), the produced card satisfies the spec's total / max /
percentage / grade / status formulas, including the 33.00 PASS-C and 32.99
FAIL-F boundary cases. -/
theorem result_route_spec (db : DB) (sid eid : Nat) (r : ResultCard)
    (h : resultCard db sid eid = some r) : ResultSpec db sid eid r := by
  unfold resultCard at h
  split at h
  next => exact absurd h (by simp)
  next stu hstu =>
    split at h
    next => exact absurd h (by simp)
    next ex hex =>
      simp only [Option.some.injEq] at h
      subst h
      refine ⟨stu, hstu, rfl, rfl, ?_, ?_, ?_, ?_, ?_, ?_, ?_⟩ <;> dsimp only
      · intro h0; rw [if_pos h0]
      · intro h0; rw [if_neg h0]
      · exact gradeOf_eq_specGrade _
      · exact statusOf_pass_iff _
      · exact statusOf_cases _
      · intro hp
        rw [hp]
        exact ⟨statusOf_at_33, gradeOf_at_33⟩
      · intro hp
        rw [hp]
        exact ⟨statusOf_at_3299, gradeOf_at_3299⟩

/-- A concrete database: one class with one subject, one student, one exam,
and a single mark of 33, giving percentage exactly 33. -/
def dbC1 : DB :=
  { classes := [SClass.mk 1 "X" "A"],
    subjects := [Subject.mk 1 1 "Math"],
    students := [Student.mk 1 "Bob" "1" 1],
    exams := [Exam.mk 1 1 "Mid"],
    marks := [Mark.mk 1 1 1 33],
    sessions := [], records := [], fee_structures := [], fee_payments := [],
    next_student_id := 2, next_session_id := 1, next_record_id := 1, next_fee_id := 1 }

theorem result_route_spec_witness :
    ResultSpec dbC1 1 1 (ResultCard.mk 33 100 33 "C" "PASS") :=
  result_route_spec dbC1 1 1 (ResultCard.mk 33 100 33 "C" "PASS") (by
    unfold resultCard dbC1 classSubjects markScore
    norm_num [List.find?, List.filter, gradeOf, statusOf])

/-! ### C2 -/

theorem filter_none_nil {α : Type} (p : α → Prop) [DecidablePred p] (l : List α)
    (h : ∀ a ∈ l, ¬ p a) : l.filter (fun a => decide (p a)) = [] := by
  induction l with
  | nil => rfl
  | cons a l ih =>
    have ha := h a (by simp)
    simp only [List.filter_cons, decide_eq_true_eq]
    rw [if_neg ha]
    exact ih (fun b hb => h b (by simp [hb]))

/-- A student with no mark rows for the exam gets total 0 in the class
results query. -/
theorem examTotal_of_no_marks (db : DB) (sid eid : Nat)
    (h : ∀ m ∈ db.marks, ¬(m.student_id = sid ∧ m.exam_id = eid)) :
    examTotal db sid eid = 0 := by
  unfold examTotal
  rw [filter_none_nil _ _ h]
  rfl

/-- What C2 asserts of the class results list: it is a permutation of one row
per class student (so every student appears, even with no marks — then with
total 0), and it is pairwise ordered by total descending with ties broken by
ascending roll number. -/
def ClassResultsSpec (db : DB) (cid eid : Nat) : Prop :=
  (class_results db cid eid).Perm
    ((classStudents db cid).map
      (fun s => ResultRow.mk s.id s.name s.roll_no (examTotal db s.id eid))) ∧
  (∀ s ∈ db.students, s.class_id = cid →
    ResultRow.mk s.id s.name s.roll_no (examTotal db s.id eid) ∈ class_results db cid eid) ∧
  (∀ s ∈ db.students, s.class_id = cid →
    (∀ m ∈ db.marks, ¬(m.student_id = s.id ∧ m.exam_id = eid)) →
    ResultRow.mk s.id s.name s.roll_no 0 ∈ class_results db cid eid) ∧
  (class_results db cid eid).Pairwise
    (fun a b => b.total ≤ a.total ∧ (a.total = b.total → a.roll_no ≤ b.roll_no))

/-- C2: Class results — for every class and exam the results list contains
every student of the class (a student with no marks appears with total 0),
sorted by total descending and, on equal totals, by roll number ascending. -/
theorem class_results_spec (db : DB) (cid eid : Nat) : ClassResultsSpec db cid eid := by
  refine ⟨List.perm_insertionSort rowLE _, ?_, ?_, ?_⟩
  · intro s hs hcid
    rw [class_results, List.mem_insertionSort, List.mem_map]
    exact ⟨s, by rw [classStudents, List.mem_filter]; simp [hs, hcid], rfl⟩
  · intro s hs hcid hnone
    rw [class_results, List.mem_insertionSort, List.mem_map]
    refine ⟨s, by rw [classStudents, List.mem_filter]; simp [hs, hcid], ?_⟩
    rw [examTotal_of_no_marks db s.id eid hnone]
  · refine List.Pairwise.imp ?_ (List.sorted_insertionSort rowLE _)
    intro a b hab
    rcases hab with h | ⟨heq, hr⟩
    · exact ⟨h.le, fun heq => absurd (heq ▸ h) (lt_irrefl _)⟩
    · exact ⟨heq.symm.le, fun _ => hr⟩

/-- A concrete database for the class-results witness: three students, two
with equal totals distinguished by roll, one with no marks. -/
def dbC2 : DB :=
  { classes := [SClass.mk 1 "X" "A"],
    subjects := [Subject.mk 1 1 "Math"],
    students := [Student.mk 1 "Ann" "1" 1, Student.mk 2 "Bea" "2" 1, Student.mk 3 "Cal" "3" 1],
    exams := [Exam.mk 1 1 "Mid"],
    marks := [Mark.mk 1 1 1 40, Mark.mk 2 1 1 40],
    sessions := [], records := [], fee_structures := [], fee_payments := [],
    next_student_id := 4, next_session_id := 1, next_record_id := 1, next_fee_id := 1 }

theorem class_results_spec_witness : ClassResultsSpec dbC2 1 1 :=
  class_results_spec dbC2 1 1

/-! ### C3 -/

theorem find?_filter_of_imp {α : Type} (p q : α → Bool) (l : List α)
    (h : ∀ a, p a = true → q a = true) :
    (l.filter q).find? p = l.find? p := by
  induction l with
  | nil => rfl
  | cons a l ih =>
    cases hq : q a with
    | true =>
      cases hp : p a with
      | true => simp [List.filter_cons, hq, List.find?, hp]
      | false => simp [List.filter_cons, hq, List.find?, hp, ih]
    | false =>
      have hp : p a = false := by
        cases hpa : p a with
        | true => exact absurd (h a hpa) (by simp [hq])
        | false => rfl
      simp [List.filter_cons, hq, List.find?, hp, ih]

/-- After an upsert, the upserted triple reads back the submitted score. -/
theorem markScore_upsert_same (d : DB) (sid u e : Nat) (v : ℚ) :
    markScore (upsertMark d sid u e v) sid u e = v := by
  simp [markScore, upsertMark, List.find?]

/-- An upsert leaves the score of every other triple unchanged. -/
theorem markScore_upsert_ne (d : DB) (sid u e s2 u2 e2 : Nat) (v : ℚ)
    (h : ¬(s2 = sid ∧ u2 = u ∧ e2 = e)) :
    markScore (upsertMark d sid u e v) s2 u2 e2 = markScore d s2 u2 e2 := by
  unfold markScore upsertMark
  simp only [List.find?]
  dsimp only
  have hhead : decide (sid = s2 ∧ u = u2 ∧ e = e2) = false := by
    simp only [decide_eq_false_iff_not]
    intro ⟨h1, h2, h3⟩
    exact h ⟨h1.symm, h2.symm, h3.symm⟩
  rw [hhead]
  rw [find?_filter_of_imp]
  intro m hm
  simp only [decide_eq_true_eq] at hm
  simp only [decide_eq_true_eq]
  intro ⟨h1, h2, h3⟩
  exact h ⟨hm.1.symm.trans h1, hm.2.1.symm.trans h2, hm.2.2.symm.trans h3⟩

/-- Score of a triple after the enter_marks fold: overwritten with the
parsed form value when some processed subject has the queried id, else
untouched. -/
theorem enter_marks_fold_score (L : List Subject) (d : DB) (sid eid x : Nat)
    (form : Nat → Option (Option ℚ)) :
    markScore (L.foldl (fun d sub => upsertMark d sid sub.id eid (parseMarks (form sub.id))) d) sid x eid
      = if (L.any (fun sub => decide (sub.id = x))) = true then parseMarks (form x)
        else markScore d sid x eid := by
  induction L generalizing d with
  | nil => simp
  | cons hd tl ih =>
    rw [List.foldl_cons, ih, List.any_cons]
    by_cases hmem : tl.any (fun sub => decide (sub.id = x)) = true
    · rw [if_pos hmem, if_pos (by rw [hmem, Bool.or_true])]
    · rw [if_neg hmem]
      by_cases hx : hd.id = x
      · subst hx
        rw [if_pos (by rw [decide_eq_true rfl, Bool.true_or])]
        exact markScore_upsert_same d sid hd.id eid _
      · rw [if_neg (by simp [hx, hmem])]
        exact markScore_upsert_ne d sid hd.id eid sid x eid _
          (fun hc => hx hc.2.1.symm)

/-- An upsert keeps every mark row of a different triple. -/
theorem upsert_mem_of_ne (d : DB) (sid u e : Nat) (v : ℚ) (m : Mark)
    (hm : m ∈ d.marks) (h : ¬(m.student_id = sid ∧ m.subject_id = u ∧ m.exam_id = e)) :
    m ∈ (upsertMark d sid u e v).marks := by
  unfold upsertMark
  simp only [List.mem_cons, List.mem_filter, decide_eq_true_eq]
  exact Or.inr ⟨hm, h⟩

/-- Mark rows whose student, exam, or subject is outside the processed
subject list survive the enter_marks fold. -/
theorem enter_marks_fold_frame (L : List Subject) (d : DB) (sid eid : Nat)
    (form : Nat → Option (Option ℚ)) (m : Mark) (hm : m ∈ d.marks)
    (h : m.student_id ≠ sid ∨ m.exam_id ≠ eid ∨ (∀ sub ∈ L, sub.id ≠ m.subject_id)) :
    m ∈ (L.foldl (fun d sub => upsertMark d sid sub.id eid (parseMarks (form sub.id))) d).marks := by
  induction L generalizing d with
  | nil => exact hm
  | cons hd tl ih =>
    rw [List.foldl_cons]
    refine ih _ (upsert_mem_of_ne _ _ _ _ _ _ hm ?_) ?_
    · intro ⟨h1, h2, h3⟩
      rcases h with h | h | h
      · exact h h1
      · exact h h3
      · exact h hd (by simp) h2.symm
    · rcases h with h | h | h
      · exact Or.inl h
      · exact Or.inr (Or.inl h)
      · exact Or.inr (Or.inr (fun sub hs => h sub (by simp [hs])))

/-- What the amended C3 asserts: a marks submission upserts EVERY subject of
the class — a subject present in the map gets its (parsed) score and a
subject absent from the map gets 0, overwriting any existing row — while
marks of other students, other exams, or subjects outside the class are
left unchanged. -/
def EnterMarksSpec (db : DB) (cid eid sid : Nat) (form : Nat → Option (Option ℚ)) : Prop :=
  (∀ sub ∈ db.subjects, sub.class_id = cid →
    markScore (enter_marks db cid eid sid form) sid sub.id eid = parseMarks (form sub.id)) ∧
  (∀ m ∈ db.marks,
    (m.student_id ≠ sid ∨ m.exam_id ≠ eid ∨
      (∀ sub ∈ db.subjects, sub.class_id = cid → sub.id ≠ m.subject_id)) →
    m ∈ (enter_marks db cid eid sid form).marks)

/-- C3 (amended): the marks-entry loop covers every subject of the class,
defaulting absent or unparseable form fields to 0 and overwriting, and
leaves all marks outside the (student, exam, class-subject) footprint
unchanged. -/
theorem enter_marks_spec (db : DB) (cid eid sid : Nat)
    (form : Nat → Option (Option ℚ)) : EnterMarksSpec db cid eid sid form := by
  constructor
  · intro sub hs hcid
    unfold enter_marks
    have hany : ((classSubjects db cid).any (fun s2 => decide (s2.id = sub.id))) = true := by
      rw [List.any_eq_true]
      exact ⟨sub, by rw [classSubjects, List.mem_filter]; simp [hs, hcid], by simp⟩
    rw [enter_marks_fold_score, if_pos hany]
  · intro m hm h
    unfold enter_marks
    refine enter_marks_fold_frame _ _ _ _ _ _ hm ?_
    rcases h with h | h | h
    · exact Or.inl h
    · exact Or.inr (Or.inl h)
    · refine Or.inr (Or.inr ?_)
      intro sub hs
      rw [classSubjects, List.mem_filter] at hs
      simp only [decide_eq_true_eq] at hs
      exact h sub hs.1 hs.2

/-- A database with an existing mark of 80 for the single class subject. -/
def dbC3 : DB :=
  { classes := [SClass.mk 1 "X" "A"],
    subjects := [Subject.mk 1 1 "Math"],
    students := [Student.mk 1 "Bob" "1" 1],
    exams := [Exam.mk 1 1 "Mid"],
    marks := [Mark.mk 1 1 1 80],
    sessions := [], records := [], fee_structures := [], fee_payments := [],
    next_student_id := 2, next_session_id := 1, next_record_id := 1, next_fee_id := 1 }

/-- Counterexample to C3 as stated: subject 1 has an existing mark of 80;
a submission whose map contains no subjects at all zeroes it instead of
leaving it unchanged. -/
theorem enter_marks_zeroes_absent_subject :
    markScore dbC3 1 1 1 = 80 ∧
    markScore (enter_marks dbC3 1 1 1 (fun _ => none)) 1 1 1 = 0 := by
  exact ⟨rfl, rfl⟩

theorem enter_marks_spec_witness : EnterMarksSpec dbC3 1 1 1 (fun _ => some (some 55)) :=
  enter_marks_spec dbC3 1 1 1 (fun _ => some (some 55))

/-! ### C4 -/

theorem filter_all {α : Type} (p : α → Prop) [DecidablePred p] (l : List α)
    (h : ∀ a ∈ l, p a) : l.filter (fun a => decide (p a)) = l := by
  induction l with
  | nil => rfl
  | cons a l ih =>
    simp only [List.filter_cons, decide_eq_true_eq]
    rw [if_pos (h a (by simp))]
    rw [ih (fun b hb => h b (by simp [hb]))]

theorem enumFrom_map_snd_comp {α β : Type} (g : α → β) :
    ∀ (n : Nat) (l : List α), (l.enumFrom n).map (fun p => g p.2) = l.map g := by
  intro n l
  induction l generalizing n with
  | nil => rfl
  | cons a l ih => simp only [List.enumFrom, List.map_cons, ih]

/-- The (student, status) pairs of the records written for the session by one
save: one per roster member, "P" exactly when the form marks the student
present. -/
theorem saveRecords_session_pairs (db : DB) (sid cid : Nat) (f : Nat → Bool) :
    ((saveRecords db sid cid f).records.filter (fun r => decide (r.session_id = sid))).map
      (fun r => (r.student_id, r.status))
    = (classStudents db cid).map (fun stu => (stu.id, if f stu.id then "P" else "A")) := by
  unfold saveRecords
  dsimp only
  rw [List.filter_append]
  rw [filter_not_filter (fun r : ARecord => r.session_id = sid)]
  rw [filter_all (fun r : ARecord => r.session_id = sid)
    _ (by
      intro a ha
      rw [List.mem_map] at ha
      obtain ⟨q, _, rfl⟩ := ha
      rfl)]
  rw [List.nil_append, List.map_map]
  show ((classStudents db cid).enumFrom 0).map
      (fun p => ((p.2 : Student).id, if f p.2.id then "P" else "A")) = _
  exact enumFrom_map_snd_comp
    (fun stu : Student => (stu.id, if f stu.id then "P" else "A")) 0 (classStudents db cid)

/-- Records of other sessions are untouched by one save. -/
theorem saveRecords_other_sessions (db : DB) (sid cid : Nat) (f : Nat → Bool) :
    (saveRecords db sid cid f).records.filter (fun r => decide (¬ r.session_id = sid))
      = db.records.filter (fun r => decide (¬ r.session_id = sid)) := by
  unfold saveRecords
  dsimp only
  rw [List.filter_append]
  rw [filter_none_nil (fun r : ARecord => ¬ r.session_id = sid)
    ((classStudents db cid).enum.map (fun p =>
      ARecord.mk (db.next_record_id + p.1) sid p.2.id (if f p.2.id then "P" else "A")))
    (by
      intro a ha
      rw [List.mem_map] at ha
      obtain ⟨q, _, rfl⟩ := ha
      simp)]
  rw [List.append_nil]
  exact filter_not_idem (fun r : ARecord => r.session_id = sid) db.records

/-- What the amended C4 asserts.  For a save of (class, date, form): the
session's records afterwards are exactly one per current roster member, in
roster order, with status "P" when the form marks the student present and
"A" otherwise (so an unspecified student gets Absent); records of other
sessions and the student roster are untouched; and saving twice with
different forms leaves the session reflecting only the second form. -/
def AttendanceSpec (db : DB) (cid : Nat) (dateStr : String) : Prop :=
  (∀ f : Nat → Bool,
    ((saveAttendance db cid dateStr f).records.filter
      (fun r => decide (r.session_id = attSessionId db cid dateStr))).map
        (fun r => (r.student_id, r.status))
    = (classStudents db cid).map (fun stu => (stu.id, if f stu.id then "P" else "A"))) ∧
  (∀ f : Nat → Bool,
    (saveAttendance db cid dateStr f).records.filter
      (fun r => decide (¬ r.session_id = attSessionId db cid dateStr))
    = db.records.filter (fun r => decide (¬ r.session_id = attSessionId db cid dateStr))) ∧
  (∀ f : Nat → Bool, (saveAttendance db cid dateStr f).students = db.students) ∧
  (∀ f : Nat → Bool,
    attSessionId (saveAttendance db cid dateStr f) cid dateStr = attSessionId db cid dateStr) ∧
  (∀ f1 f2 : Nat → Bool,
    ((saveAttendance (saveAttendance db cid dateStr f1) cid dateStr f2).records.filter
      (fun r => decide (r.session_id = attSessionId db cid dateStr))).map
        (fun r => (r.student_id, r.status))
    = (classStudents db cid).map (fun stu => (stu.id, if f2 stu.id then "P" else "A")))

theorem saveAttendance_students (db : DB) (cid : Nat) (dateStr : String) (f : Nat → Bool) :
    (saveAttendance db cid dateStr f).students = db.students := by
  unfold saveAttendance
  cases findSession db cid dateStr <;> rfl

theorem saveAttendance_roster (db : DB) (cid : Nat) (dateStr : String) (f : Nat → Bool) :
    classStudents (saveAttendance db cid dateStr f) cid = classStudents db cid := by
  unfold classStudents
  rw [saveAttendance_students]

theorem saveAttendance_session_pairs (db : DB) (cid : Nat) (dateStr : String) (f : Nat → Bool) :
    ((saveAttendance db cid dateStr f).records.filter
      (fun r => decide (r.session_id = attSessionId db cid dateStr))).map
        (fun r => (r.student_id, r.status))
    = (classStudents db cid).map (fun stu => (stu.id, if f stu.id then "P" else "A")) := by
  unfold saveAttendance attSessionId
  cases h : findSession db cid dateStr with
  | some srow => exact saveRecords_session_pairs db srow.id cid f
  | none => exact saveRecords_session_pairs _ db.next_session_id cid f

theorem saveAttendance_other_sessions (db : DB) (cid : Nat) (dateStr : String) (f : Nat → Bool) :
    (saveAttendance db cid dateStr f).records.filter
      (fun r => decide (¬ r.session_id = attSessionId db cid dateStr))
    = db.records.filter (fun r => decide (¬ r.session_id = attSessionId db cid dateStr)) := by
  unfold saveAttendance attSessionId
  cases h : findSession db cid dateStr with
  | some srow => exact saveRecords_other_sessions db srow.id cid f
  | none => exact saveRecords_other_sessions _ db.next_session_id cid f

theorem saveAttendance_session_stable (db : DB) (cid : Nat) (dateStr : String) (f : Nat → Bool) :
    attSessionId (saveAttendance db cid dateStr f) cid dateStr = attSessionId db cid dateStr := by
  unfold saveAttendance
  cases h : findSession db cid dateStr with
  | some srow =>
    unfold attSessionId
    have : findSession (saveRecords db srow.id cid f) cid dateStr = findSession db cid dateStr := rfl
    rw [this, h]
  | none =>
    unfold attSessionId findSession
    unfold saveRecords
    dsimp only
    rw [List.find?_append]
    unfold findSession at h
    rw [h]
    simp [List.find?]

/-- C4 (amended): attendance save fully replaces the session — afterwards
the session holds exactly one record per roster member whose status comes
from the submitted form, with Absent (not Present) for any student the form
does not mark present; other sessions and the roster are untouched, and a
second save makes the session reflect only the latest form. -/
theorem attendance_replace_spec (db : DB) (cid : Nat) (dateStr : String) :
    AttendanceSpec db cid dateStr := by
  refine ⟨saveAttendance_session_pairs db cid dateStr,
         saveAttendance_other_sessions db cid dateStr,
         saveAttendance_students db cid dateStr,
         saveAttendance_session_stable db cid dateStr, ?_⟩
  intro f1 f2
  rw [← saveAttendance_session_stable db cid dateStr f1,
     saveAttendance_session_pairs (saveAttendance db cid dateStr f1) cid dateStr f2,
     saveAttendance_roster]

/-- A database with one class and one student, no attendance yet. -/
def dbC4 : DB :=
  { classes := [SClass.mk 1 "X" "A"],
    subjects := [], students := [Student.mk 1 "Bob" "1" 1], exams := [], marks := [],
    sessions := [], records := [], fee_structures := [], fee_payments := [],
    next_student_id := 2, next_session_id := 1, next_record_id := 1, next_fee_id := 1 }

/-- Counterexample to C4 as stated: saving attendance with an input that
specifies nothing gives the sole roster member the status "A" (Absent),
not "P" (Present) as the claim's default demands. -/
theorem attendance_default_is_absent :
    ((saveAttendance dbC4 1 "2025-01-01" (fun _ => false)).records.filter
      (fun r => decide (r.session_id = attSessionId dbC4 1 "2025-01-01"))).map
        (fun r => (r.student_id, r.status))
    = [(1, "A")] ∧ "A" ≠ "P" := by
  exact ⟨rfl, by decide⟩

theorem attendance_replace_spec_witness : AttendanceSpec dbC4 1 "2025-01-01" :=
  attendance_replace_spec dbC4 1 "2025-01-01"

/-! ### C5 -/

/-- What the amended C5 asserts: a teacher calling delete-class gets
Forbidden (no state is produced, so the class is not deleted); a teacher
POSTing an add-fee-structure request is silently ignored — whenever the
route returns a state it is the unchanged input state, and when the class
exists it returns success with the unchanged state rather than Forbidden;
and the role gate itself denies teacher for admin-only operations. -/
def RoleGateSpec (db : DB) (cid : Nat) (name : String) (amount : ℚ)
    (due : Option String) : Prop :=
  delete_class_route (some Role.teacher) db cid = Except.error RouteErr.forbidden ∧
  (∀ db2, fees_class_post Role.teacher db cid name amount due = Except.ok db2 → db2 = db) ∧
  ((db.classes.find? (fun c => decide (c.id = cid))).isSome →
    fees_class_post Role.teacher db cid name amount due = Except.ok db) ∧
  require_role [Role.admin] (some Role.teacher) = some RouteErr.forbidden

/-- C5 (amended): the admin-only routes behind `require_role` surface
Forbidden to a teacher with no state change, but the inline role check of
the add-fee-structure POST silently ignores a teacher's request instead of
surfacing Forbidden. -/
theorem role_gate_spec (db : DB) (cid : Nat) (name : String) (amount : ℚ)
    (due : Option String) : RoleGateSpec db cid name amount due := by
  refine ⟨rfl, ?_, ?_, rfl⟩
  · intro db2 h
    unfold fees_class_post at h
    cases hc : db.classes.find? (fun c => decide (c.id = cid)) with
    | none => rw [hc] at h; exact absurd h (by simp)
    | some c =>
      rw [hc] at h
      rw [if_neg (by simp)] at h
      exact (Except.ok.injEq _ _ ▸ h).symm
  · intro hsome
    unfold fees_class_post
    cases hc : db.classes.find? (fun c => decide (c.id = cid)) with
    | none => rw [hc] at hsome; exact absurd hsome (by simp)
    | some c => rw [if_neg (by simp)]

/-- A database with one class and no fee structures. -/
def dbC5 : DB :=
  { classes := [SClass.mk 1 "X" "A"],
    subjects := [], students := [], exams := [], marks := [],
    sessions := [], records := [], fee_structures := [], fee_payments := [],
    next_student_id := 1, next_session_id := 1, next_record_id := 1, next_fee_id := 1 }

/-- Counterexample to C5 as stated: a teacher's add-fee-structure POST on an
existing class returns success with the state unchanged — a silent no-op —
instead of surfacing Forbidden as the claim demands. -/
theorem fees_teacher_silent_noop :
    fees_class_post Role.teacher dbC5 1 "Tuition" 100 none = Except.ok dbC5 ∧
    fees_class_post Role.teacher dbC5 1 "Tuition" 100 none
      ≠ Except.error RouteErr.forbidden := by
  refine ⟨rfl, fun h => ?_⟩
  rw [show fees_class_post Role.teacher dbC5 1 "Tuition" 100 none = Except.ok dbC5 from rfl] at h
  exact Except.noConfusion h

theorem role_gate_spec_witness : RoleGateSpec dbC5 1 "Tuition" 100 none :=
  role_gate_spec dbC5 1 "Tuition" 100 none

/-! ### C6 -/

/-- Referential integrity of the embedded database: every foreign key
references an existing row (the schema enforces this via FOREIGN KEY
constraints with `PRAGMA foreign_keys = ON`). -/
def RefIntegrity (db : DB) : Prop :=
  (∀ x ∈ db.subjects, ∃ c ∈ db.classes, c.id = x.class_id) ∧
  (∀ x ∈ db.students, ∃ c ∈ db.classes, c.id = x.class_id) ∧
  (∀ x ∈ db.exams, ∃ c ∈ db.classes, c.id = x.class_id) ∧
  (∀ x ∈ db.fee_structures, ∃ c ∈ db.classes, c.id = x.class_id) ∧
  (∀ x ∈ db.sessions, ∃ c ∈ db.classes, c.id = x.class_id) ∧
  (∀ m ∈ db.marks, (∃ s ∈ db.students, s.id = m.student_id) ∧
    (∃ x ∈ db.subjects, x.id = m.subject_id) ∧ (∃ e ∈ db.exams, e.id = m.exam_id)) ∧
  (∀ r ∈ db.records, (∃ s ∈ db.sessions, s.id = r.session_id) ∧
    (∃ s ∈ db.students, s.id = r.student_id)) ∧
  (∀ p ∈ db.fee_payments, (∃ s ∈ db.students, s.id = p.student_id) ∧
    (∃ f ∈ db.fee_structures, f.id = p.fee_id))

/-- What C6 asserts of `cascadeDeleteClass db cid`: every row owned by the
class is gone, every mark / attendance record / fee payment transitively
owned by a deleted row is gone, and (given referential integrity before the
delete) no orphaned child row remains afterwards. -/
def CascadeDeleteSpec (db : DB) (cid : Nat) : Prop :=
  (∀ c ∈ (cascadeDeleteClass db cid).classes, c.id ≠ cid) ∧
  (∀ x ∈ (cascadeDeleteClass db cid).subjects, x.class_id ≠ cid) ∧
  (∀ x ∈ (cascadeDeleteClass db cid).students, x.class_id ≠ cid) ∧
  (∀ x ∈ (cascadeDeleteClass db cid).exams, x.class_id ≠ cid) ∧
  (∀ x ∈ (cascadeDeleteClass db cid).fee_structures, x.class_id ≠ cid) ∧
  (∀ x ∈ (cascadeDeleteClass db cid).sessions, x.class_id ≠ cid) ∧
  (∀ m ∈ db.marks,
    ((∃ s ∈ db.students, s.id = m.student_id ∧ s.class_id = cid) ∨
     (∃ x ∈ db.subjects, x.id = m.subject_id ∧ x.class_id = cid) ∨
     (∃ e ∈ db.exams, e.id = m.exam_id ∧ e.class_id = cid)) →
    m ∉ (cascadeDeleteClass db cid).marks) ∧
  (∀ r ∈ db.records,
    ((∃ s ∈ db.sessions, s.id = r.session_id ∧ s.class_id = cid) ∨
     (∃ s ∈ db.students, s.id = r.student_id ∧ s.class_id = cid)) →
    r ∉ (cascadeDeleteClass db cid).records) ∧
  (∀ p ∈ db.fee_payments,
    ((∃ s ∈ db.students, s.id = p.student_id ∧ s.class_id = cid) ∨
     (∃ f ∈ db.fee_structures, f.id = p.fee_id ∧ f.class_id = cid)) →
    p ∉ (cascadeDeleteClass db cid).fee_payments) ∧
  (RefIntegrity db → RefIntegrity (cascadeDeleteClass db cid))

theorem dead_of_owner {α : Type} (g idf : α → Nat) (l : List α) (cid n : Nat)
    {x : α} (hx : x ∈ l) (hid : idf x = n) (hg : g x = cid) :
    n ∈ (l.filter (fun y => decide (g y = cid))).map idf :=
  List.mem_map.mpr ⟨x, List.mem_filter.mpr ⟨hx, by simp [hg]⟩, hid⟩

theorem not_dead_survives {α : Type} (g idf : α → Nat) (l : List α) (cid n : Nat)
    (hn : n ∉ (l.filter (fun y => decide (g y = cid))).map idf)
    {x : α} (hx : x ∈ l) (hid : idf x = n) :
    x ∈ l.filter (fun y => decide (¬ g y = cid)) := by
  rw [List.mem_filter]
  refine ⟨hx, ?_⟩
  simp only [decide_eq_true_eq]
  intro hg
  exact hn (dead_of_owner g idf l cid n hx hid hg)

/-- C6: Cascade delete — deleting a class removes every subject, student,
exam, fee structure and attendance session it owns, removes every mark,
attendance record and fee payment transitively owned by them, and preserves
referential integrity (no orphaned child rows remain). -/
theorem cascade_delete_spec (db : DB) (cid : Nat) : CascadeDeleteSpec db cid := by
  unfold CascadeDeleteSpec cascadeDeleteClass
  dsimp only
  refine ⟨?_, ?_, ?_, ?_, ?_, ?_, ?_, ?_, ?_, ?_⟩
  · intro c hc
    rw [List.mem_filter] at hc
    simpa using hc.2
  · intro x hx
    rw [List.mem_filter] at hx
    simpa using hx.2
  · intro x hx
    rw [List.mem_filter] at hx
    simpa using hx.2
  · intro x hx
    rw [List.mem_filter] at hx
    simpa using hx.2
  · intro x hx
    rw [List.mem_filter] at hx
    simpa using hx.2
  · intro x hx
    rw [List.mem_filter] at hx
    simpa using hx.2
  · intro m hm hdead hmem
    rw [List.mem_filter] at hmem
    have hq := hmem.2
    simp only [decide_eq_true_eq, not_or] at hq
    rcases hdead with ⟨s, hs, hid, hcls⟩ | ⟨x, hx, hid, hcls⟩ | ⟨e, he, hid, hcls⟩
    · exact hq.1 (dead_of_owner (fun y => y.class_id) (fun y => y.id) db.students cid
        m.student_id hs hid hcls)
    · exact hq.2.1 (dead_of_owner (fun y => y.class_id) (fun y => y.id) db.subjects cid
        m.subject_id hx hid hcls)
    · exact hq.2.2 (dead_of_owner (fun y => y.class_id) (fun y => y.id) db.exams cid
        m.exam_id he hid hcls)
  · intro r hr hdead hmem
    rw [List.mem_filter] at hmem
    have hq := hmem.2
    simp only [decide_eq_true_eq, not_or] at hq
    rcases hdead with ⟨s, hs, hid, hcls⟩ | ⟨s, hs, hid, hcls⟩
    · exact hq.1 (dead_of_owner (fun y => y.class_id) (fun y => y.id) db.sessions cid
        r.session_id hs hid hcls)
    · exact hq.2 (dead_of_owner (fun y => y.class_id) (fun y => y.id) db.students cid
        r.student_id hs hid hcls)
  · intro p hp hdead hmem
    rw [List.mem_filter] at hmem
    have hq := hmem.2
    simp only [decide_eq_true_eq, not_or] at hq
    rcases hdead with ⟨s, hs, hid, hcls⟩ | ⟨f, hf, hid, hcls⟩
    · exact hq.1 (dead_of_owner (fun y => y.class_id) (fun y => y.id) db.students cid
        p.student_id hs hid hcls)
    · exact hq.2 (dead_of_owner (fun y => y.class_id) (fun y => y.id) db.fee_structures cid
        p.fee_id hf hid hcls)
  · intro hint
    obtain ⟨I1, I2, I3, I4, I5, I6, I7, I8⟩ := hint
    have hcls : ∀ (n : Nat) (x : SClass), x ∈ db.classes → x.id = n → n ≠ cid →
        ∃ c ∈ db.classes.filter (fun c => decide (¬ c.id = cid)), c.id = n := by
      intro n x hx hid hne
      exact ⟨x, List.mem_filter.mpr ⟨hx, by simp [hid ▸ hne]⟩, hid⟩
    refine ⟨?_, ?_, ?_, ?_, ?_, ?_, ?_, ?_⟩
    · intro x hx
      rw [List.mem_filter] at hx
      obtain ⟨c, hc, hcid⟩ := I1 x hx.1
      exact hcls x.class_id c hc hcid (by simpa using hx.2)
    · intro x hx
      rw [List.mem_filter] at hx
      obtain ⟨c, hc, hcid⟩ := I2 x hx.1
      exact hcls x.class_id c hc hcid (by simpa using hx.2)
    · intro x hx
      rw [List.mem_filter] at hx
      obtain ⟨c, hc, hcid⟩ := I3 x hx.1
      exact hcls x.class_id c hc hcid (by simpa using hx.2)
    · intro x hx
      rw [List.mem_filter] at hx
      obtain ⟨c, hc, hcid⟩ := I4 x hx.1
      exact hcls x.class_id c hc hcid (by simpa using hx.2)
    · intro x hx
      rw [List.mem_filter] at hx
      obtain ⟨c, hc, hcid⟩ := I5 x hx.1
      exact hcls x.class_id c hc hcid (by simpa using hx.2)
    · intro m hm
      rw [List.mem_filter] at hm
      have hq := hm.2
      simp only [decide_eq_true_eq, not_or] at hq
      obtain ⟨⟨s, hs, hsid⟩, ⟨x, hx, hxid⟩, ⟨e, he, heid⟩⟩ := I6 m hm.1
      exact ⟨⟨s, not_dead_survives _ _ db.students cid m.student_id hq.1 hs hsid, hsid⟩,
             ⟨x, not_dead_survives _ _ db.subjects cid m.subject_id hq.2.1 hx hxid, hxid⟩,
             ⟨e, not_dead_survives _ _ db.exams cid m.exam_id hq.2.2 he heid, heid⟩⟩
    · intro r hr
      rw [List.mem_filter] at hr
      have hq := hr.2
      simp only [decide_eq_true_eq, not_or] at hq
      obtain ⟨⟨s, hs, hsid⟩, ⟨t, ht, htid⟩⟩ := I7 r hr.1
      exact ⟨⟨s, not_dead_survives _ _ db.sessions cid r.session_id hq.1 hs hsid, hsid⟩,
             ⟨t, not_dead_survives _ _ db.students cid r.student_id hq.2 ht htid, htid⟩⟩
    · intro p hp
      rw [List.mem_filter] at hp
      have hq := hp.2
      simp only [decide_eq_true_eq, not_or] at hq
      obtain ⟨⟨s, hs, hsid⟩, ⟨f, hf, hfid⟩⟩ := I8 p hp.1
      exact ⟨⟨s, not_dead_survives _ _ db.students cid p.student_id hq.1 hs hsid, hsid⟩,
             ⟨f, not_dead_survives _ _ db.fee_structures cid p.fee_id hq.2 hf hfid, hfid⟩⟩

/-- A database with two classes, each with a full chain of dependent rows:
subject, student, exam, mark, session, record, fee structure, payment. -/
def dbC6 : DB :=
  { classes := [SClass.mk 1 "X" "A", SClass.mk 2 "Y" "B"],
    subjects := [Subject.mk 1 1 "Math", Subject.mk 2 2 "Art"],
    students := [Student.mk 1 "Bob" "1" 1, Student.mk 2 "Eve" "1" 2],
    exams := [Exam.mk 1 1 "Mid", Exam.mk 2 2 "Mid"],
    marks := [Mark.mk 1 1 1 50, Mark.mk 2 2 2 60],
    sessions := [ASession.mk 1 1 "2025-01-01", ASession.mk 2 2 "2025-01-01"],
    records := [ARecord.mk 1 1 1 "P", ARecord.mk 2 2 2 "A"],
    fee_structures := [FeeStructure.mk 1 1 "Tuition" 500 none, FeeStructure.mk 2 2 "Tuition" 400 none],
    fee_payments := [FeePayment.mk 1 1 1 200 "2025-01-02" none, FeePayment.mk 2 2 2 100 "2025-01-02" none],
    next_student_id := 3, next_session_id := 3, next_record_id := 3, next_fee_id := 3 }

theorem cascade_delete_spec_witness : CascadeDeleteSpec dbC6 1 :=
  cascade_delete_spec dbC6 1

/-! ### C8 -/

/-- What C8 asserts of a successful fee summary: due is the class-wide sum
of fee-structure amounts, paid is the student's payment sum over the
class's fee lines, and balance = due − paid. -/
def FeeSpec (db : DB) (sid : Nat) (r : FeeSummary) : Prop :=
  ∃ stu, db.students.find? (fun s => decide (s.id = sid)) = some stu ∧
    r.due = totalDue db stu.class_id ∧
    r.paid = totalPaid db sid stu.class_id ∧
    r.balance = r.due - r.paid

/-- A student owing 500 with two partial payments 200 and 250. -/
def dbC8a : DB :=
  { classes := [SClass.mk 1 "X" "A"],
    subjects := [], students := [Student.mk 1 "Bob" "1" 1], exams := [], marks := [],
    sessions := [], records := [],
    fee_structures := [FeeStructure.mk 1 1 "Tuition" 500 none],
    fee_payments := [FeePayment.mk 1 1 1 200 "2025-01-02" none,
                     FeePayment.mk 2 1 1 250 "2025-01-03" none],
    next_student_id := 2, next_session_id := 1, next_record_id := 1, next_fee_id := 2 }

/-- A student owing 500 with a single overpayment of 600. -/
def dbC8b : DB :=
  { classes := [SClass.mk 1 "X" "A"],
    subjects := [], students := [Student.mk 1 "Bob" "1" 1], exams := [], marks := [],
    sessions := [], records := [],
    fee_structures := [FeeStructure.mk 1 1 "Tuition" 500 none],
    fee_payments := [FeePayment.mk 1 1 1 600 "2025-01-02" none],
    next_student_id := 2, next_session_id := 1, next_record_id := 1, next_fee_id := 2 }

/-- C8: Fee balance — the reported due is the class-wide fee sum, paid is
the student's payment sum over the class's fee lines, balance = due − paid,
and a negative balance is produced (not an error): due=500 with payments
[200,250] yields balance 50, and due=500 with payment [600] yields −100. -/
theorem fees_student_spec :
    (∀ (db : DB) (sid : Nat) (r : FeeSummary),
      fees_student db sid = some r → FeeSpec db sid r) ∧
    fees_student dbC8a 1 = some (FeeSummary.mk 500 450 50) ∧
    fees_student dbC8b 1 = some (FeeSummary.mk 500 600 (-100)) := by
  refine ⟨?_, ?_, ?_⟩
  · intro db sid r h
    unfold fees_student at h
    split at h
    next => exact absurd h (by simp)
    next stu hstu =>
      simp only [Option.some.injEq] at h
      subst h
      exact ⟨stu, hstu, rfl, rfl, rfl⟩
  · unfold fees_student dbC8a totalDue totalPaid
    norm_num [List.find?, List.filter, FeeSummary.mk.injEq]
  · unfold fees_student dbC8b totalDue totalPaid
    norm_num [List.find?, List.filter, FeeSummary.mk.injEq]

theorem fees_student_spec_witness : FeeSpec dbC8a 1 (FeeSummary.mk 500 450 50) :=
  fees_student_spec.1 dbC8a 1 (FeeSummary.mk 500 450 50) fees_student_spec.2.1

/-! ### C9 -/

theorem insertStudent_cases (d : DB) (name roll : String) (cid : Nat) :
    insertStudent d name roll cid = d ∨
    (insertStudent d name roll cid = { d with
        students := d.students ++ [Student.mk d.next_student_id name roll cid],
        next_student_id := d.next_student_id + 1 } ∧
      (d.classes.any (fun c => decide (c.id = cid))) = true ∧
      rollTaken d.students cid roll = false) := by
  unfold insertStudent
  split
  next h =>
    rw [Bool.and_eq_true] at h
    right
    refine ⟨rfl, h.1, ?_⟩
    have h2 := h.2
    rwa [Bool.not_eq_true'] at h2
  next => left; rfl

theorem insertStudent_classes (d : DB) (name roll : String) (cid : Nat) :
    (insertStudent d name roll cid).classes = d.classes := by
  unfold insertStudent; split <;> rfl

theorem rollTaken_append (l1 l2 : List Student) (cid : Nat) (roll : String) :
    rollTaken (l1 ++ l2) cid roll = (rollTaken l1 cid roll || rollTaken l2 cid roll) := by
  unfold rollTaken
  exact List.any_append

/-- The promotion fold touches only the students table and its counter. -/
theorem promoteFold_frame (target : Nat) (L : List Student) (d : DB) :
    (promoteFold target L d).classes = d.classes ∧
    (promoteFold target L d).subjects = d.subjects ∧
    (promoteFold target L d).exams = d.exams ∧
    (promoteFold target L d).marks = d.marks ∧
    (promoteFold target L d).sessions = d.sessions ∧
    (promoteFold target L d).records = d.records ∧
    (promoteFold target L d).fee_structures = d.fee_structures ∧
    (promoteFold target L d).fee_payments = d.fee_payments ∧
    d.next_student_id ≤ (promoteFold target L d).next_student_id := by
  induction L generalizing d with
  | nil => exact ⟨rfl, rfl, rfl, rfl, rfl, rfl, rfl, rfl, le_refl _⟩
  | cons hd tl ih =>
    have hstep : promoteFold target (hd :: tl) d
        = promoteFold target tl (insertStudent d hd.name hd.roll_no target) := by
      unfold promoteFold; rw [List.foldl_cons]
    rw [hstep]
    rcases insertStudent_cases d hd.name hd.roll_no target with h | ⟨h, _, _⟩
    · rw [h]; exact ih d
    · rw [h]
      have h1 := ih { d with
        students := d.students ++ [Student.mk d.next_student_id hd.name hd.roll_no target],
        next_student_id := d.next_student_id + 1 }
      exact ⟨h1.1, h1.2.1, h1.2.2.1, h1.2.2.2.1, h1.2.2.2.2.1, h1.2.2.2.2.2.1,
        h1.2.2.2.2.2.2.1, h1.2.2.2.2.2.2.2.1,
        le_trans (Nat.le_succ _) h1.2.2.2.2.2.2.2.2⟩

/-- The promotion fold only appends students, all in the target class, with
fresh ids, with rolls free in the target at loop start, each a copy of a
processed source student. -/
theorem promoteFold_students (target : Nat) (L : List Student) (d : DB) :
    ∃ new, (promoteFold target L d).students = d.students ++ new ∧
      ∀ x ∈ new, x.class_id = target ∧ d.next_student_id ≤ x.id ∧
        rollTaken d.students target x.roll_no = false ∧
        ∃ stu ∈ L, stu.name = x.name ∧ stu.roll_no = x.roll_no := by
  induction L generalizing d with
  | nil =>
    refine ⟨[], by rw [List.append_nil]; rfl, ?_⟩
    intro x hx
    cases hx
  | cons hd tl ih =>
    have hstep : promoteFold target (hd :: tl) d
        = promoteFold target tl (insertStudent d hd.name hd.roll_no target) := by
      unfold promoteFold; rw [List.foldl_cons]
    rw [hstep]
    rcases insertStudent_cases d hd.name hd.roll_no target with h | ⟨h, hcls, hfree⟩
    · rw [h]
      obtain ⟨new, hsh, hp⟩ := ih d
      refine ⟨new, hsh, ?_⟩
      intro x hx
      obtain ⟨h1, h2, h3, stu, hstu, hn⟩ := hp x hx
      exact ⟨h1, h2, h3, stu, List.mem_cons_of_mem _ hstu, hn⟩
    · rw [h]
      obtain ⟨new, hsh, hp⟩ := ih { d with
        students := d.students ++ [Student.mk d.next_student_id hd.name hd.roll_no target],
        next_student_id := d.next_student_id + 1 }
      refine ⟨Student.mk d.next_student_id hd.name hd.roll_no target :: new, ?_, ?_⟩
      · rw [hsh]
        show (d.students ++ [Student.mk d.next_student_id hd.name hd.roll_no target]) ++ new = _
        rw [List.append_assoc]
        rfl
      · intro x hx
        rcases List.mem_cons.mp hx with heq | hxnew
        · subst heq
          exact ⟨rfl, le_refl _, hfree, hd, List.mem_cons_self _ _, rfl, rfl⟩
        · obtain ⟨h1, h2, h3, stu, hstu, hn⟩ := hp x hxnew
          refine ⟨h1, le_trans (Nat.le_succ _) h2, ?_, stu, List.mem_cons_of_mem _ hstu, hn⟩
          have h3a : rollTaken (d.students ++
              [Student.mk d.next_student_id hd.name hd.roll_no target]) target x.roll_no
              = false := h3
          rw [rollTaken_append] at h3a
          exact (Bool.or_eq_false_iff.mp h3a).1

/-- Every source student whose roll is free in the target at loop start is
copied by the promotion fold. -/
theorem promoteFold_copies (target : Nat) (L : List Student) (d : DB)
    (hex : (d.classes.any (fun c => decide (c.id = target))) = true)
    (hdist : L.Pairwise (fun a b => a.roll_no ≠ b.roll_no)) :
    ∀ stu ∈ L, rollTaken d.students target stu.roll_no = false →
      ∃ x ∈ (promoteFold target L d).students,
        x.class_id = target ∧ x.name = stu.name ∧ x.roll_no = stu.roll_no := by
  induction L generalizing d with
  | nil => intro stu h; cases h
  | cons hd tl ih =>
    intro stu hstu hfree
    have hstep : promoteFold target (hd :: tl) d
        = promoteFold target tl (insertStudent d hd.name hd.roll_no target) := by
      unfold promoteFold; rw [List.foldl_cons]
    rw [hstep]
    rcases List.mem_cons.mp hstu with heq | htl
    · subst heq
      have hins : insertStudent d stu.name stu.roll_no target = { d with
          students := d.students ++ [Student.mk d.next_student_id stu.name stu.roll_no target],
          next_student_id := d.next_student_id + 1 } := by
        unfold insertStudent
        rw [if_pos (by rw [hex, hfree]; rfl)]
      rw [hins]
      obtain ⟨new, hsh, _⟩ := promoteFold_students target tl { d with
          students := d.students ++ [Student.mk d.next_student_id stu.name stu.roll_no target],
          next_student_id := d.next_student_id + 1 }
      refine ⟨Student.mk d.next_student_id stu.name stu.roll_no target, ?_, rfl, rfl, rfl⟩
      rw [hsh]
      show _ ∈ (d.students ++ [Student.mk d.next_student_id stu.name stu.roll_no target]) ++ new
      simp [List.mem_append]
    · have hex2 : ((insertStudent d hd.name hd.roll_no target).classes.any
          (fun c => decide (c.id = target))) = true := by
        rw [insertStudent_classes]; exact hex
      have hfree2 : rollTaken (insertStudent d hd.name hd.roll_no target).students
          target stu.roll_no = false := by
        rcases insertStudent_cases d hd.name hd.roll_no target with h | ⟨h, _, _⟩
        · rw [h]; exact hfree
        · rw [h]
          show rollTaken (d.students ++
            [Student.mk d.next_student_id hd.name hd.roll_no target]) target stu.roll_no = false
          rw [rollTaken_append, hfree, Bool.false_or]
          have hne : hd.roll_no ≠ stu.roll_no := List.rel_of_pairwise_cons hdist htl
          unfold rollTaken
          simp [hne]
      exact ih (insertStudent d hd.name hd.roll_no target) hex2
        (List.Pairwise.of_cons hdist) stu htl hfree2

theorem promote_false_eq (db : DB) (sourceId targetId : Nat) :
    promote_class db sourceId targetId false
      = promoteFold targetId (classStudents db sourceId) db := by
  unfold promote_class
  rw [if_neg (by simp)]

/-- What C9 asserts of promotion with move=false: the source roster is
unchanged; every pre-existing student row (in particular the target's
original holder of a duplicated roll) survives; every source student whose
roll is free in the target gets a copy in the target, independently of
other students being skipped; and every student row after the operation is
either pre-existing or a copy of a source student whose roll was free. -/
def PromoteCopySpec (db : DB) (sourceId targetId : Nat) : Prop :=
  (sourceId ≠ targetId →
    classStudents (promote_class db sourceId targetId false) sourceId
      = classStudents db sourceId) ∧
  (∀ x ∈ db.students, x ∈ (promote_class db sourceId targetId false).students) ∧
  ((db.classes.any (fun c => decide (c.id = targetId))) = true →
    (classStudents db sourceId).Pairwise (fun a b => a.roll_no ≠ b.roll_no) →
    ∀ stu ∈ classStudents db sourceId,
      rollTaken db.students targetId stu.roll_no = false →
      ∃ x ∈ classStudents (promote_class db sourceId targetId false) targetId,
        x.name = stu.name ∧ x.roll_no = stu.roll_no) ∧
  (∀ x ∈ (promote_class db sourceId targetId false).students,
    x ∈ db.students ∨
      (x.class_id = targetId ∧ rollTaken db.students targetId x.roll_no = false ∧
        ∃ stu ∈ classStudents db sourceId, stu.name = x.name ∧ stu.roll_no = x.roll_no))

/-- C9: Promotion with move=false — students are copied independently,
duplicate rolls are skipped without aborting the batch, the target keeps
its pre-existing rows, and the source roster is unchanged. -/
theorem promote_copy_spec (db : DB) (sourceId targetId : Nat) :
    PromoteCopySpec db sourceId targetId := by
  obtain ⟨new, hsh, hp⟩ := promoteFold_students targetId (classStudents db sourceId) db
  refine ⟨?_, ?_, ?_, ?_⟩
  · intro hne
    rw [promote_false_eq]
    show ((promoteFold targetId (classStudents db sourceId) db).students.filter
        (fun s => decide (s.class_id = sourceId)))
      = db.students.filter (fun s => decide (s.class_id = sourceId))
    rw [hsh, List.filter_append]
    rw [filter_none_nil (fun s : Student => s.class_id = sourceId) new
      (by
        intro x hx h
        have h2 : x.class_id = sourceId := h
        rw [(hp x hx).1] at h2
        exact hne h2.symm)]
    rw [List.append_nil]
  · intro x hx
    rw [promote_false_eq, hsh]
    exact List.mem_append_left _ hx
  · intro hex hdist stu hstu hfree
    obtain ⟨x, hxmem, hxcls, hxname, hxroll⟩ :=
      promoteFold_copies targetId (classStudents db sourceId) db hex hdist stu hstu hfree
    refine ⟨x, ?_, hxname, hxroll⟩
    rw [promote_false_eq]
    show x ∈ (promoteFold targetId (classStudents db sourceId) db).students.filter
      (fun s => decide (s.class_id = targetId))
    rw [List.mem_filter]
    exact ⟨hxmem, by simp [hxcls]⟩
  · intro x hx
    rw [promote_false_eq, hsh, List.mem_append] at hx
    rcases hx with hx | hx
    · exact Or.inl hx
    · obtain ⟨h1, _, h3, stu, hstu, hn1, hn2⟩ := hp x hx
      exact Or.inr ⟨h1, h3, stu, hstu, hn1, hn2⟩

/-- The promotion scenario of the spec: source class 1 has rolls 1,2,3; the
target class 2 already holds roll 2. -/
def dbC9 : DB :=
  { classes := [SClass.mk 1 "X" "A", SClass.mk 2 "Y" "A"],
    subjects := [],
    students := [Student.mk 1 "Ann" "1" 1, Student.mk 2 "Bea" "2" 1,
                 Student.mk 3 "Cal" "3" 1, Student.mk 4 "Dex" "2" 2],
    exams := [], marks := [Mark.mk 1 1 1 50],
    sessions := [], records := [ARecord.mk 1 1 1 "P"],
    fee_structures := [], fee_payments := [FeePayment.mk 1 1 1 100 "2025-01-02" none],
    next_student_id := 5, next_session_id := 2, next_record_id := 2, next_fee_id := 1 }

theorem promote_copy_spec_witness : PromoteCopySpec dbC9 1 2 :=
  promote_copy_spec dbC9 1 2

/-! ### C10 -/

theorem promote_true_eq (db : DB) (sourceId targetId : Nat) :
    promote_class db sourceId targetId true
      = deleteStudentsOfClass (promoteFold targetId (classStudents db sourceId) db) sourceId := by
  unfold promote_class
  rw [if_pos rfl]

/-- What C10 asserts of promotion with move=true: every student row of the
source class is deleted by id — including duplicates that were never copied
— with marks, attendance records and fee payments of source students
cascaded away; every surviving student row is either pre-existing or a
fresh copy in the target class; and the fresh copies carry no marks,
attendance records, or payments. -/
def PromoteMoveSpec (db : DB) (sourceId targetId : Nat) : Prop :=
  ((∀ s ∈ db.students, s.id < db.next_student_id) →
    db.students.Pairwise (fun a b => a.id ≠ b.id) →
    ∀ s ∈ db.students, s.class_id = sourceId →
      ∀ x ∈ (promote_class db sourceId targetId true).students, x.id ≠ s.id) ∧
  (∀ m ∈ db.marks, (∃ s ∈ db.students, s.id = m.student_id ∧ s.class_id = sourceId) →
    m ∉ (promote_class db sourceId targetId true).marks) ∧
  (∀ r ∈ db.records, (∃ s ∈ db.students, s.id = r.student_id ∧ s.class_id = sourceId) →
    r ∉ (promote_class db sourceId targetId true).records) ∧
  (∀ p ∈ db.fee_payments, (∃ s ∈ db.students, s.id = p.student_id ∧ s.class_id = sourceId) →
    p ∉ (promote_class db sourceId targetId true).fee_payments) ∧
  (∀ x ∈ (promote_class db sourceId targetId true).students,
    x ∈ db.students ∨ (x.class_id = targetId ∧ db.next_student_id ≤ x.id)) ∧
  ((∀ m ∈ db.marks, m.student_id < db.next_student_id) →
    ∀ x ∈ (promote_class db sourceId targetId true).students, db.next_student_id ≤ x.id →
      ∀ m ∈ (promote_class db sourceId targetId true).marks, m.student_id ≠ x.id) ∧
  ((∀ r ∈ db.records, r.student_id < db.next_student_id) →
    ∀ x ∈ (promote_class db sourceId targetId true).students, db.next_student_id ≤ x.id →
      ∀ r ∈ (promote_class db sourceId targetId true).records, r.student_id ≠ x.id) ∧
  ((∀ p ∈ db.fee_payments, p.student_id < db.next_student_id) →
    ∀ x ∈ (promote_class db sourceId targetId true).students, db.next_student_id ≤ x.id →
      ∀ p ∈ (promote_class db sourceId targetId true).fee_payments, p.student_id ≠ x.id)

/-- C10: Promotion with move=true deletes every source student row
(including skipped duplicates), cascades away their marks, attendance
records and fee payments, and the copied students are fresh rows carrying
none of that history. -/
theorem promote_move_spec (db : DB) (sourceId targetId : Nat) :
    PromoteMoveSpec db sourceId targetId := by
  obtain ⟨new, hsh, hp⟩ := promoteFold_students targetId (classStudents db sourceId) db
  have hfr := promoteFold_frame targetId (classStudents db sourceId) db
  rw [PromoteMoveSpec, promote_true_eq]
  unfold deleteStudentsOfClass
  dsimp only
  refine ⟨?_, ?_, ?_, ?_, ?_, ?_, ?_, ?_⟩
  · intro hlt hdist s hs hscls x hx
    rw [List.mem_filter] at hx
    obtain ⟨hxmem, hxcls⟩ := hx
    simp only [decide_eq_true_eq] at hxcls
    rw [hsh, List.mem_append] at hxmem
    rcases hxmem with hxo | hxn
    · have hnex : x ≠ s := by
        intro heq
        rw [heq] at hxcls
        exact hxcls hscls
      exact List.Pairwise.forall (fun a b h => Ne.symm h) hdist hxo hs hnex
    · have h2 := (hp x hxn).2.1
      have h3 := hlt s hs
      omega
  · intro m hm ⟨s, hs, hsid, hscls⟩ hmem
    rw [List.mem_filter] at hmem
    have hq := hmem.2
    simp only [decide_eq_true_eq] at hq
    refine hq (dead_of_owner (fun y => y.class_id) (fun y => y.id)
      (promoteFold targetId (classStudents db sourceId) db).students sourceId m.student_id
      ?_ hsid hscls)
    rw [hsh]
    exact List.mem_append_left _ hs
  · intro r hr ⟨s, hs, hsid, hscls⟩ hmem
    rw [List.mem_filter] at hmem
    have hq := hmem.2
    simp only [decide_eq_true_eq] at hq
    refine hq (dead_of_owner (fun y => y.class_id) (fun y => y.id)
      (promoteFold targetId (classStudents db sourceId) db).students sourceId r.student_id
      ?_ hsid hscls)
    rw [hsh]
    exact List.mem_append_left _ hs
  · intro p hpay ⟨s, hs, hsid, hscls⟩ hmem
    rw [List.mem_filter] at hmem
    have hq := hmem.2
    simp only [decide_eq_true_eq] at hq
    refine hq (dead_of_owner (fun y => y.class_id) (fun y => y.id)
      (promoteFold targetId (classStudents db sourceId) db).students sourceId p.student_id
      ?_ hsid hscls)
    rw [hsh]
    exact List.mem_append_left _ hs
  · intro x hx
    rw [List.mem_filter] at hx
    have hxmem := hx.1
    rw [hsh, List.mem_append] at hxmem
    rcases hxmem with hxo | hxn
    · exact Or.inl hxo
    · exact Or.inr ⟨(hp x hxn).1, (hp x hxn).2.1⟩
  · intro hlt x hx hxid m hmem
    rw [List.mem_filter] at hmem
    have hmm : m ∈ db.marks := by
      rw [← hfr.2.2.2.1]
      exact hmem.1
    have := hlt m hmm
    omega
  · intro hlt x hx hxid r hmem
    rw [List.mem_filter] at hmem
    have hmm : r ∈ db.records := by
      rw [← hfr.2.2.2.2.2.1]
      exact hmem.1
    have := hlt r hmm
    omega
  · intro hlt x hx hxid p hmem
    rw [List.mem_filter] at hmem
    have hmm : p ∈ db.fee_payments := by
      rw [← hfr.2.2.2.2.2.2.2.1]
      exact hmem.1
    have := hlt p hmm
    omega

theorem promote_move_spec_witness : PromoteMoveSpec dbC9 1 2 :=
  promote_move_spec dbC9 1 2

end SchoolMS
